import Mathlib

/-!
Verification of the cross-platform foreground-activity tracker of the Macro
repository. The Rust source under `src/src-tauri/src/` is embedded shallowly:

* `database/mod.rs` data models become Lean structures with `Int` timestamps
  (whole seconds; chrono subsecond precision is below the granularity any
  claim mentions);
* the PostgREST collaborator becomes an explicit `List TimeEntry` state, the
  query-string filters becoming `List.filter` predicates matching the URL
  filters character for character;
* `platform/database_helpers.rs` (the Session Manager) becomes pure state
  passing functions;
* `platform/windows_tracker.rs` and the matching helpers of
  `platform/macos_tracker.rs` become pure step functions on a
  `TrackingState` × database pair; `HashMap` is modelled as an association
  list with key-overwriting insert;
* `tracking/mod.rs` (`ActivityTracker`) cache logic becomes a pure function
  of the state, the collaborator contents and the current instant.

Network failures are outside the model: every collaborator round-trip is
taken on its success path, which is the path all the claims speak about.
-/

/-- `database/mod.rs` `Application` (fields the tracker reads). -/
structure Application where
  id : String
  name : String
  process_name : String
  category : Option String
  is_tracked : Bool
  user_id : Option String
deriving DecidableEq

/-- `database/mod.rs` `TimeEntry`; timestamps are whole seconds. -/
structure TimeEntry where
  id : String
  user_id : String
  app_id : Option String
  task_id : Option String
  start_time : Int
  end_time : Option Int
  duration_seconds : Option Int
  is_active : Bool
  created_at : Int
  updated_at : Int
deriving DecidableEq

/-- `tracking/mod.rs` `CurrentActivity`. -/
structure CurrentActivity where
  app_name : String
  app_category : String
  start_time : Int
  duration_minutes : Int
  duration_hours : Int
  is_active : Bool
  active_apps_count : Nat
deriving DecidableEq

/-- `platform/tracking_trait.rs` `TrackingState`; the two `HashMap`s are
association lists, `Instant`s are `Int` seconds on the same clock. -/
structure TrackingState where
  active_apps : List (String × String)
  last_activity_time : Int
  is_tracking : Bool
  app_last_seen : List (String × Int)
  cached_current_activity : Option CurrentActivity
  cache_last_updated : Int
deriving DecidableEq

/-- A platform tracker's full mutable world: its lock-protected state plus
the collaborator's `time_entries` table. -/
structure WinWorld where
  state : TrackingState
  db : List TimeEntry
deriving DecidableEq

/-- Association-list lookup, modelling `HashMap::get` / `contains_key`. -/
def lookupA {β : Type} : List (String × β) → String → Option β
  | [], _ => none
  | (k', v) :: t, k => if k' == k then some v else lookupA t k

/-- Association-list insert, modelling `HashMap::insert` (overwrites). -/
def insertA {β : Type} : List (String × β) → String → β → List (String × β)
  | [], k, v => [(k, v)]
  | (k', v') :: t, k, v =>
      if k' == k then (k, v) :: t else (k', v') :: insertA t k v

/-- Association-list removal, modelling `HashMap::remove`. -/
def eraseA {β : Type} : List (String × β) → String → List (String × β)
  | [], _ => []
  | (k', v') :: t, k => if k' == k then t else (k', v') :: eraseA t k

/-- Character-list version of `str::starts_with` for the matcher below. -/
def isPre : List Char → List Char → Bool
  | [], _ => true
  | _ :: _, [] => false
  | a :: as, b :: bs => a == b && isPre as bs

/-- Character-list version of Rust `str::contains` (substring test). -/
def containsSub : List Char → List Char → Bool
  | [], needle => needle.isEmpty
  | c :: t, needle => isPre needle (c :: t) || containsSub t needle

/-- Repeatedly drop a trailing occurrence of `suf`, modelling
`str::trim_end_matches`; `fuel` bounds the recursion (the callers pass the
string length, enough for the nonempty suffixes used). -/
def dropSuffixAll (s suf : List Char) : Nat → List Char
  | 0 => s
  | fuel + 1 =>
      if isPre suf.reverse s.reverse then
        dropSuffixAll (s.take (s.length - suf.length)) suf fuel
      else s

/-- Rust `str::trim` on a character list: drop whitespace at both ends. -/
def trimChars (s : List Char) : List Char :=
  ((s.dropWhile Char.isWhitespace).reverse.dropWhile Char.isWhitespace).reverse

/-- `macos_tracker.rs` `normalize_name`: trim whitespace, strip all trailing
`.app` then `.exe` suffixes, lower-case. -/
def normalizeName (name : String) : String :=
  let t := trimChars name.toList
  let t1 := dropSuffixAll t ".app".toList t.length
  let t2 := dropSuffixAll t1 ".exe".toList t1.length
  String.mk (t2.map Char.toLower)

/-- `macos_tracker.rs` `names_match`: normalized-equal or one normalized
name a substring of the other. -/
def namesMatch (a b : String) : Bool :=
  let an := (normalizeName a).toList
  let bn := (normalizeName b).toList
  an == bn || containsSub an bn || containsSub bn an

/-- `macos_tracker.rs` `app_name_likely_matches`. -/
def appNameLikelyMatches (appName procName detectedName detectedBundle : String) : Bool :=
  let a := (normalizeName appName).toList
  let p := (normalizeName procName).toList
  let d := (normalizeName detectedName).toList
  let b := (normalizeName detectedBundle).toList
  if p == b || p == d then true
  else if a == d then true
  else containsSub a d || containsSub d a || containsSub p d || containsSub d p

/-- `windows_tracker.rs` `categorize_app`. -/
def categorizeAppWindows (appName : String) : String :=
  let n := (String.map Char.toLower appName).toList
  if containsSub n "chrome".toList || containsSub n "firefox".toList ||
     containsSub n "edge".toList || containsSub n "safari".toList then "Browser"
  else if containsSub n "code".toList || containsSub n "studio".toList ||
     containsSub n "vim".toList || containsSub n "emacs".toList then "Development"
  else if containsSub n "word".toList || containsSub n "excel".toList ||
     containsSub n "powerpoint".toList || containsSub n "notion".toList then "Productivity"
  else if containsSub n "game".toList || containsSub n "steam".toList ||
     containsSub n "epic".toList then "Gaming"
  else if containsSub n "discord".toList || containsSub n "slack".toList ||
     containsSub n "teams".toList then "Communication"
  else "Other"

/-- The PostgREST filter of `start_time_entry`'s existence check:
`user_id=eq.{user}&app_id=eq.{app_id}&is_active=eq.true`. -/
def activeEntryFor (user appId : String) (e : TimeEntry) : Bool :=
  e.user_id == user && e.app_id == some appId && e.is_active

/-- The row `start_time_entry` POSTs when no active entry exists. -/
def freshEntry (user : String) (app : Application) (now : Int)
    (freshId : String) : TimeEntry :=
  { id := freshId, user_id := user, app_id := some app.id, task_id := none
    start_time := now, end_time := none, duration_seconds := none
    is_active := true, created_at := now, updated_at := now }

/-- `database_helpers.rs` `DatabaseHelpers::start_time_entry`: reuse the
first already-active entry for `(user, app)`, else append a fresh one.
Returns the entry id handed back to the tracker and the new table. -/
def startTimeEntry (db : List TimeEntry) (user : String) (app : Application)
    (now : Int) (freshId : String) : String × List TimeEntry :=
  match (db.filter (activeEntryFor user app.id)).head? with
  | some e => (e.id, db)
  | none => (freshId, db ++ [freshEntry user app now freshId])

/-- The record update `end_time_entry` PATCHes onto a matched row. -/
def closeEntryAt (now dur : Int) (e : TimeEntry) : TimeEntry :=
  { e with end_time := some now, duration_seconds := some dur
           is_active := false, updated_at := now }

/-- `database_helpers.rs` `DatabaseHelpers::end_time_entry`: fetch the entry
by id (`Err "Time entry not found"` when absent), compute
`duration_seconds = now - start_time` (signed, no clamping), then PATCH
every row with that id. -/
def endTimeEntry (db : List TimeEntry) (entryId : String) (now : Int) :
    Except String (List TimeEntry) :=
  match (db.filter (fun e => e.id == entryId)).head? with
  | none => .error "Time entry not found"
  | some e =>
      let dur := now - e.start_time
      .ok (db.map (fun x => if x.id == entryId then closeEntryAt now dur x else x))

/-- The callers' `let _ = DatabaseHelpers::end_time_entry(..)`: the error is
discarded and the table left as it was. -/
def endTimeEntryIgnore (db : List TimeEntry) (entryId : String) (now : Int) :
    List TimeEntry :=
  match endTimeEntry db entryId now with
  | .ok db' => db'
  | .error _ => db

/-- A `for entry_id in ids { let _ = end_time_entry(...) }` loop. -/
def closeAll (ids : List String) (now : Int) (db : List TimeEntry) : List TimeEntry :=
  ids.foldl (fun d i => endTimeEntryIgnore d i now) db

/-- `windows_tracker.rs:247-251`: the foreground process is tracked when some
tracked application's `process_name` equals it exactly. -/
def winForegroundIsTracked (fg : Option String) (apps : List Application) : Bool :=
  match fg with
  | some f => apps.any (fun a => a.process_name == f)
  | none => false

/-- The snapshot `update_activity` writes into the cache each tick
(`windows_tracker.rs:313-321`). -/
def winSnapshot (f : String) (now : Int) (st : TrackingState) : CurrentActivity :=
  { app_name := f, app_category := categorizeAppWindows f, start_time := now
    duration_minutes := 0, duration_hours := 0
    is_active := (lookupA st.active_apps f).isSome
    active_apps_count := st.active_apps.length }

/-- `windows_tracker.rs:254-270`: when the foreground app is untracked and
sessions are open, clear the map and end every collected entry. -/
def winCloseBranch (tracked : Bool) (now : Int) (st : TrackingState)
    (db : List TimeEntry) : TrackingState × List TimeEntry :=
  if !tracked && !st.active_apps.isEmpty then
    ({ st with active_apps := [] }, closeAll (st.active_apps.map Prod.snd) now db)
  else (st, db)

/-- `windows_tracker.rs:273-296`: when the foreground app is tracked and not
yet in the map, start a time entry and record it; the Bool reports whether a
start happened (it feeds `should_invalidate_cache`). -/
def winStartBranch (tracked : Bool) (fg : Option String) (apps : List Application)
    (user : String) (now : Int) (freshId : String)
    (st : TrackingState) (db : List TimeEntry) :
    TrackingState × List TimeEntry × Bool :=
  if tracked then
    match fg with
    | some f =>
      match apps.find? (fun a => a.process_name == f) with
      | some app =>
          if (lookupA st.active_apps app.process_name).isSome then (st, db, false)
          else
            let r := startTimeEntry db user app now freshId
            ({ st with active_apps := insertA st.active_apps app.process_name r.1
                       app_last_seen := insertA st.app_last_seen app.process_name now },
             r.2, true)
      | none => (st, db, false)
    | none => (st, db, false)
  else (st, db, false)

/-- `windows_tracker.rs:299-327`: optional invalidation followed by the
unconditional per-tick cache refresh. -/
def winCacheUpdate (fg : Option String) (now : Int) (invalidate : Bool)
    (st : TrackingState) : TrackingState :=
  let st1 :=
    if invalidate then
      { st with cached_current_activity := none, cache_last_updated := now }
    else st
  match fg with
  | some f =>
      { st1 with cached_current_activity := some (winSnapshot f now st1)
                 cache_last_updated := now }
  | none =>
      { st1 with cached_current_activity := none, cache_last_updated := now }

/-- One tick of `WindowsTracker::update_activity`, as a function of the
sampled foreground process, the fetched tracked-application list, the
current user, the clock and the uuid the next insert would use. -/
def winUpdateActivity (fg : Option String) (apps : List Application)
    (user : String) (now : Int) (freshId : String) (w : WinWorld) : WinWorld :=
  let st0 := { w.state with last_activity_time := now }
  let tracked := winForegroundIsTracked fg apps
  let p1 := winCloseBranch tracked now st0 w.db
  let closedSome := !tracked && !st0.active_apps.isEmpty
  let p2 := winStartBranch tracked fg apps user now freshId p1.1 p1.2
  let st3 := winCacheUpdate fg now (closedSome || p2.2.2) p2.1
  { state := st3, db := p2.2.1 }

/-- `WindowsTracker::stop_tracking`: set `is_tracking` false and end the
entries recorded in `active_apps` (the map itself is left untouched). -/
def winStopTracking (now : Int) (w : WinWorld) : Except String Unit × WinWorld :=
  let st := { w.state with is_tracking := false }
  (.ok (), { state := st, db := closeAll (st.active_apps.map Prod.snd) now w.db })

/-- `WindowsTracker::start_tracking` up to the spawn of the loop: skip when
already tracking, else `cleanup_existing_active_entries` (end every active
entry of the user) and only then set `is_tracking`. -/
def winStartTracking (user : String) (now : Int) (w : WinWorld) : WinWorld :=
  if w.state.is_tracking then w
  else
    let ids := (w.db.filter (fun e => e.user_id == user && e.is_active)).map (·.id)
    { state := { w.state with is_tracking := true, last_activity_time := now }
      db := closeAll ids now w.db }

/-- `WindowsTracker::stop_tracking_for_app`: remove the key from
`active_apps`; no collaborator call is made and `Ok` is always returned. -/
def winStopTrackingForApp (pname : String) (w : WinWorld) :
    Except String Unit × WinWorld :=
  (.ok (),
   { w with state := { w.state with active_apps := eraseA w.state.active_apps pname } })

/-- `WindowsTracker::stop_tracking_for_app_by_id`: prints and returns `Ok`;
nothing changes. -/
def winStopTrackingForAppById (_appId : String) (w : WinWorld) :
    Except String Unit × WinWorld :=
  (.ok (), w)

/-- `WindowsTracker::get_current_activity`: a fresh snapshot of the current
foreground process; `start_time` is the call instant and the duration fields
are the literal zeros of `windows_tracker.rs:350-351`. -/
def winGetCurrentActivity (fg : Option String) (now : Int)
    (st : TrackingState) : Option CurrentActivity :=
  match fg with
  | some f =>
      some { app_name := f, app_category := categorizeAppWindows f
             start_time := now, duration_minutes := 0, duration_hours := 0
             is_active := (lookupA st.active_apps f).isSome
             active_apps_count := st.active_apps.length }
  | none => none

/-- `macos_tracker.rs:278-295`: the four-way fuzzy membership test used by
the macOS tick. -/
def macosAppIsTracked (apps : List Application) (appName bundleId : String) : Bool :=
  apps.any (fun app =>
    namesMatch app.process_name bundleId ||
    namesMatch app.name appName ||
    namesMatch app.process_name appName ||
    appNameLikelyMatches app.name app.process_name appName bundleId)

/-- One tick's inputs for the tracking loop. -/
structure TickInput where
  fg : Option String
  apps : List Application
  now : Int
  freshId : String

/-- A whole sequence of `update_activity` ticks. -/
def runTicks (user : String) (l : List TickInput) (w : WinWorld) : WinWorld :=
  l.foldl (fun w t => winUpdateActivity t.fg t.apps user t.now t.freshId w) w

/-- `tracking/mod.rs` `TrackingState` (the single-focused-app variant used
by `ActivityTracker`). -/
structure ATState where
  current_focused_app : Option String
  current_entry_id : Option String
  last_activity_time : Int
  is_tracking : Bool
  last_focused_change : Int
  cached_current_activity : Option CurrentActivity
  cache_last_updated : Int
deriving DecidableEq

/-- chrono `Duration::num_minutes`: seconds divided by 60, truncating toward
zero, as Rust integer division does. -/
def minutesOf (secs : Int) : Int := Int.tdiv secs 60

/-- chrono `Duration::num_hours`. -/
def hoursOf (secs : Int) : Int := Int.tdiv secs 3600

/-- `ActivityTracker::refresh_current_activity_cache`: look the entry up by
id, then its application; on success build the snapshot with the duration
recomputed from the entry's `start_time` and repopulate the cache; every
miss returns `None` without touching the cache. -/
def atRefreshCache (st : ATState) (db : List TimeEntry) (apps : List Application)
    (now : Int) : Option CurrentActivity × ATState :=
  match st.current_entry_id with
  | none => (none, st)
  | some entryId =>
    match (db.filter (fun e => e.id == entryId)).head? with
    | none => (none, st)
    | some entry =>
      match entry.app_id with
      | none => (none, st)
      | some appId =>
        match (apps.filter (fun a => a.id == appId)).head? with
        | none => (none, st)
        | some app =>
            let dur := now - entry.start_time
            let activity : CurrentActivity :=
              { app_name := app.name
                app_category := app.category.getD "Other"
                start_time := entry.start_time
                duration_minutes := minutesOf dur
                duration_hours := hoursOf dur
                is_active := entry.is_active
                active_apps_count := 1 }
            (some activity,
             { st with cached_current_activity := some activity
                       cache_last_updated := now })

/-- `ActivityTracker::get_current_activity` (`tracking/mod.rs:515-553`):
no current entry clears the cache and returns `None`; a cache younger than
2 seconds is returned with only the duration fields recomputed from the
cached `start_time`; otherwise the cache is refreshed. -/
def atGetCurrentActivity (st : ATState) (db : List TimeEntry)
    (apps : List Application) (now : Int) : Option CurrentActivity × ATState :=
  if st.current_entry_id.isNone then
    (none, { st with cached_current_activity := none, cache_last_updated := now })
  else
    match st.cached_current_activity with
    | some cached =>
        if now - st.cache_last_updated < 2 then
          let dur := now - cached.start_time
          (some { app_name := cached.app_name, app_category := cached.app_category
                  start_time := cached.start_time
                  duration_minutes := minutesOf dur, duration_hours := hoursOf dur
                  is_active := cached.is_active, active_apps_count := 1 }, st)
        else atRefreshCache st db apps now
    | none => atRefreshCache st db apps now

/-- The spec's core invariant: for every user and app id, at most one row of
the `time_entries` table is active. The count uses the very predicate the
tracker's existence check filters by. -/
def atMostOneActive (db : List TimeEntry) : Prop :=
  ∀ u a : String, db.countP (activeEntryFor u a) ≤ 1

/-- Counting helper: a pointwise-weakening map cannot raise a `countP`. -/
theorem countP_map_le {α : Type} (p : α → Bool) (f : α → α)
    (h : ∀ x, p (f x) = true → p x = true) (l : List α) :
    (l.map f).countP p ≤ l.countP p := by
  induction l with
  | nil => simp
  | cons x t ih =>
      simp only [List.map_cons, List.countP_cons]
      have hsplit : (if p (f x) = true then 1 else 0)
          ≤ (if p x = true then 1 else 0) := by
        by_cases hx : p (f x) = true
        · simp [hx, h x hx]
        · simp [hx]
      omega

/-- A closed row never satisfies the active-entry filter. -/
theorem activeEntryFor_closeEntryAt (u a : String) (now dur : Int)
    (e : TimeEntry) : activeEntryFor u a (closeEntryAt now dur e) = false := by
  simp [activeEntryFor, closeEntryAt]

/-- Ending one entry (success or not-found alike) never raises the number of
active rows for any `(user, app)` pair. -/
theorem countP_endTimeEntryIgnore_le (u a : String) (db : List TimeEntry)
    (i : String) (now : Int) :
    (endTimeEntryIgnore db i now).countP (activeEntryFor u a)
      ≤ db.countP (activeEntryFor u a) := by
  unfold endTimeEntryIgnore endTimeEntry
  cases h : (db.filter (fun e => e.id == i)).head? with
  | none => simp
  | some e =>
      simp only []
      apply countP_map_le
      intro x hx
      by_cases hxi : (x.id == i) = true
      · rw [if_pos hxi, activeEntryFor_closeEntryAt] at hx
        exact absurd hx (by simp)
      · rwa [if_neg hxi] at hx

/-- Ending a batch of entries never raises the active count. -/
theorem countP_closeAll_le (u a : String) (ids : List String) (now : Int)
    (db : List TimeEntry) :
    (closeAll ids now db).countP (activeEntryFor u a)
      ≤ db.countP (activeEntryFor u a) := by
  induction ids generalizing db with
  | nil => simp [closeAll]
  | cons i t ih =>
      simp only [closeAll, List.foldl_cons]
      exact le_trans (ih (endTimeEntryIgnore db i now))
        (countP_endTimeEntryIgnore_le u a db i now)

/-- `start_time_entry` preserves the at-most-one-active invariant: it only
inserts after its existence check found no active `(user, app)` row. -/
theorem atMostOneActive_startTimeEntry (db : List TimeEntry) (user : String)
    (app : Application) (now : Int) (freshId : String)
    (h : atMostOneActive db) :
    atMostOneActive (startTimeEntry db user app now freshId).2 := by
  unfold startTimeEntry
  cases hh : (db.filter (activeEntryFor user app.id)).head? with
  | some e => simpa using h
  | none =>
      intro u a
      have hnil : db.filter (activeEntryFor user app.id) = [] := by
        cases hf : db.filter (activeEntryFor user app.id) with
        | nil => rfl
        | cons x t => rw [hf] at hh; simp at hh
      simp only [List.countP_append, List.countP_cons, List.countP_nil, Nat.zero_add]
      by_cases hcase : user = u ∧ app.id = a
      · obtain ⟨hu, ha⟩ := hcase
        subst hu; subst ha
        have h0 : db.countP (activeEntryFor user app.id) = 0 := by
          rw [List.countP_eq_length_filter, hnil]; rfl
        have hpred : activeEntryFor user app.id (freshEntry user app now freshId) = true := by
          simp [activeEntryFor, freshEntry]
        rw [h0, hpred]
        simp
      · have hpred : activeEntryFor u a (freshEntry user app now freshId) = false := by
          simp only [activeEntryFor, freshEntry]
          rcases not_and_or.mp hcase with hu | ha
          · simp [beq_eq_false_iff_ne.mpr hu]
          · simp [beq_eq_false_iff_ne.mpr ha]
        rw [hpred]
        simpa using h u a

/-- The close branch of the Windows tick preserves the invariant. -/
theorem atMostOneActive_winCloseBranch (tracked : Bool) (now : Int)
    (st : TrackingState) (db : List TimeEntry) (h : atMostOneActive db) :
    atMostOneActive (winCloseBranch tracked now st db).2 := by
  unfold winCloseBranch
  split
  · intro u a
    exact le_trans (countP_closeAll_le u a (st.active_apps.map Prod.snd) now db) (h u a)
  · exact h

/-- The start branch of the Windows tick preserves the invariant. -/
theorem atMostOneActive_winStartBranch (tracked : Bool) (fg : Option String)
    (apps : List Application) (user : String) (now : Int) (freshId : String)
    (st : TrackingState) (db : List TimeEntry) (h : atMostOneActive db) :
    atMostOneActive (winStartBranch tracked fg apps user now freshId st db).2.1 := by
  unfold winStartBranch
  split
  · split
    · split
      · split
        · exact h
        · exact atMostOneActive_startTimeEntry db user _ now freshId h
      · exact h
    · exact h
  · exact h

/-- One whole `update_activity` tick preserves the invariant. -/
theorem atMostOneActive_winUpdateActivity (fg : Option String)
    (apps : List Application) (user : String) (now : Int) (freshId : String)
    (w : WinWorld) (h : atMostOneActive w.db) :
    atMostOneActive (winUpdateActivity fg apps user now freshId w).db := by
  unfold winUpdateActivity
  exact atMostOneActive_winStartBranch _ fg apps user now freshId _ _
    (atMostOneActive_winCloseBranch _ now _ w.db h)

/-- C1: At-most-one-open-session invariant — for every sequence of tick
invocations (each carrying its own focus sample, tracked-app snapshot, clock
and fresh uuid), if the collaborator starts with at most one active time
entry per `(user, app_id)` pair, then after the whole sequence it still has
at most one; in particular `update_activity` via `start_time_entry`
preserves the invariant on the collaborator's state. -/
theorem c1_at_most_one_active_session (user : String) (l : List TickInput)
    (w : WinWorld) (h : atMostOneActive w.db) :
    atMostOneActive (runTicks user l w).db := by
  induction l generalizing w with
  | nil => simpa [runTicks] using h
  | cons t ts ih =>
      simp only [runTicks, List.foldl_cons]
      exact ih _ (atMostOneActive_winUpdateActivity t.fg t.apps user t.now t.freshId w h)

/-- A tracked application used by the concrete witnesses. -/
def sampleApp : Application :=
  { id := "app-1", name := "Editor", process_name := "code.exe"
    category := some "Development", is_tracked := true, user_id := some "u1" }

/-- A freshly constructed tracker world: default state, empty collaborator. -/
def initialWorld : WinWorld :=
  { state := { active_apps := [], last_activity_time := 0, is_tracking := true
               app_last_seen := [], cached_current_activity := none
               cache_last_updated := 0 }
    db := [] }

/-- Witness for C1 at a concrete two-tick run (open a session for
`code.exe`, then lose focus to untracked `chrome.exe`). -/
theorem c1_witness :
    atMostOneActive (runTicks "u1"
      [⟨some "code.exe", [sampleApp], 5, "entry-1"⟩,
       ⟨some "chrome.exe", [sampleApp], 10, "entry-2"⟩] initialWorld).db :=
  c1_at_most_one_active_session "u1" _ initialWorld
    (by intro u a; simp [initialWorld])

/-- C2: Idempotent re-attach — two consecutive `start_time_entry` calls for
the same `(user, app)` with no intervening close return the same entry id,
and the second call creates nothing (the collaborator state is unchanged). -/
theorem c2_idempotent_reattach (db : List TimeEntry) (user : String)
    (app : Application) (now1 now2 : Int) (f1 f2 : String) :
    (startTimeEntry (startTimeEntry db user app now1 f1).2 user app now2 f2).1
      = (startTimeEntry db user app now1 f1).1 ∧
    (startTimeEntry (startTimeEntry db user app now1 f1).2 user app now2 f2).2
      = (startTimeEntry db user app now1 f1).2 := by
  cases hh : (db.filter (activeEntryFor user app.id)).head? with
  | some e =>
      have h1 : startTimeEntry db user app now1 f1 = (e.id, db) := by
        unfold startTimeEntry; rw [hh]
      have h2 : startTimeEntry db user app now2 f2 = (e.id, db) := by
        unfold startTimeEntry; rw [hh]
      rw [h1, h2]
      exact ⟨rfl, rfl⟩
  | none =>
      have hnil : db.filter (activeEntryFor user app.id) = [] := by
        cases hf : db.filter (activeEntryFor user app.id) with
        | nil => rfl
        | cons x t => rw [hf] at hh; simp at hh
      have hpred : activeEntryFor user app.id (freshEntry user app now1 f1) = true := by
        simp [activeEntryFor, freshEntry]
      have h1 : startTimeEntry db user app now1 f1
          = (f1, db ++ [freshEntry user app now1 f1]) := by
        unfold startTimeEntry; rw [hh]
      have hfilter : (db ++ [freshEntry user app now1 f1]).filter
          (activeEntryFor user app.id) = [freshEntry user app now1 f1] := by
        rw [List.filter_append, hnil]
        simp [hpred]
      have h2 : startTimeEntry (db ++ [freshEntry user app now1 f1]) user app now2 f2
          = (f1, db ++ [freshEntry user app now1 f1]) := by
        unfold startTimeEntry
        rw [hfilter]
        simp [freshEntry]
      rw [h1, h2]
      exact ⟨rfl, rfl⟩

/-- An active entry used by the C3 counterexample and witness. -/
def c3Entry : TimeEntry :=
  { id := "e1", user_id := "u1", app_id := some "app-1", task_id := none
    start_time := 10, end_time := none, duration_seconds := none
    is_active := true, created_at := 10, updated_at := 10 }

/-- C3 counterexample: closing a session whose `start_time` (10) lies after
the closing instant (5) writes `duration_seconds = -5`, a negative value —
the code never clamps clock skew to 0 as the claim states. -/
theorem c3_counterexample_negative_duration :
    endTimeEntry [c3Entry] "e1" 5 = .ok [closeEntryAt 5 (-5) c3Entry] ∧
    (closeEntryAt 5 (-5) c3Entry).duration_seconds = some (-5) ∧ (-5 : Int) < 0 :=
  ⟨rfl, rfl, by decide⟩

/-- C3 (amended): for every session found by id, `end_time_entry` writes
`end_time = now`, `is_active = false` and `duration_seconds` equal to the
signed whole-second difference `now - start_time`; the value is negative
whenever `now < start_time` (no clamping). -/
theorem c3_duration_signed_difference (db : List TimeEntry) (i : String)
    (now : Int) (e : TimeEntry)
    (h : (db.filter (fun x => x.id == i)).head? = some e) :
    endTimeEntry db i now = .ok (db.map (fun x =>
      if x.id == i then closeEntryAt now (now - e.start_time) x else x)) := by
  unfold endTimeEntry
  rw [h]

/-- Witness for C3 at a concrete close 7 seconds after the start. -/
theorem c3_witness :
    ([c3Entry].filter (fun x => x.id == "e1")).head? = some c3Entry ∧
    endTimeEntry [c3Entry] "e1" 17 = .ok ([c3Entry].map (fun x =>
      if x.id == "e1" then closeEntryAt 17 (17 - c3Entry.start_time) x else x)) :=
  ⟨rfl, c3_duration_signed_difference [c3Entry] "e1" 17 c3Entry rfl⟩

/-- C4 counterexample: closing a session that is absent from the
collaborator returns `Err "Time entry not found"`, not the no-op success the
claim states. -/
theorem c4_counterexample_close_absent_errors :
    endTimeEntry [] "missing" 0 = .error "Time entry not found" := rfl

/-- C4 (amended): `end_time_entry` on a session absent from the collaborator
returns the error `"Time entry not found"` (not a no-op success), while on
an already-closed session it succeeds as a clean overwrite of `end_time`,
`duration_seconds` and `is_active`. -/
theorem c4_close_absent_errors_closed_overwrites (db : List TimeEntry)
    (i : String) (now : Int) (e : TimeEntry) :
    ((db.filter (fun x => x.id == i)).head? = none →
      endTimeEntry db i now = .error "Time entry not found") ∧
    ((db.filter (fun x => x.id == i)).head? = some e → e.is_active = false →
      endTimeEntry db i now = .ok (db.map (fun x =>
        if x.id == i then closeEntryAt now (now - e.start_time) x else x))) := by
  constructor
  · intro h; unfold endTimeEntry; rw [h]
  · intro h _; unfold endTimeEntry; rw [h]

/-- An already-closed entry used by the C4 witness. -/
def c4ClosedEntry : TimeEntry :=
  { id := "e2", user_id := "u1", app_id := some "app-1", task_id := none
    start_time := 10, end_time := some 20, duration_seconds := some 10
    is_active := false, created_at := 10, updated_at := 20 }

/-- Witness for C4: the absent case at id `"missing"` and the
already-closed case at `c4ClosedEntry`. -/
theorem c4_witness :
    (([c4ClosedEntry].filter (fun x => x.id == "e2")).head? = some c4ClosedEntry) ∧
    c4ClosedEntry.is_active = false ∧
    endTimeEntry [c4ClosedEntry] "e2" 25 = .ok ([c4ClosedEntry].map (fun x =>
      if x.id == "e2" then closeEntryAt 25 (25 - c4ClosedEntry.start_time) x else x)) ∧
    endTimeEntry [] "gone" 3 = .error "Time entry not found" :=
  ⟨rfl, rfl,
   (c4_close_absent_errors_closed_overwrites [c4ClosedEntry] "e2" 25 c4ClosedEntry).2 rfl rfl,
   (c4_close_absent_errors_closed_overwrites [] "gone" 3 c4ClosedEntry).1 rfl⟩

/-- Ending an entry rewrites rows in place: the id column is unchanged. -/
theorem endTimeEntryIgnore_map_id (db : List TimeEntry) (i : String) (now : Int) :
    (endTimeEntryIgnore db i now).map (·.id) = db.map (·.id) := by
  unfold endTimeEntryIgnore endTimeEntry
  cases h : (db.filter (fun e => e.id == i)).head? with
  | none => rfl
  | some e =>
      simp only [List.map_map]
      apply List.map_congr_left
      intro x _
      by_cases hxi : (x.id == i) = true
      · simp [Function.comp, hxi, closeEntryAt]
      · simp [Function.comp, hxi]

/-- Ending a batch of entries leaves the id column unchanged — in
particular no row is ever created by a close. -/
theorem closeAll_map_id (ids : List String) (now : Int) (db : List TimeEntry) :
    (closeAll ids now db).map (·.id) = db.map (·.id) := by
  induction ids generalizing db with
  | nil => rfl
  | cons i t ih =>
      simp only [closeAll, List.foldl_cons]
      exact (ih (endTimeEntryIgnore db i now)).trans (endTimeEntryIgnore_map_id db i now)

/-- Rows already inactive on a set of ids stay inactive through one close. -/
theorem inactiveOn_endTimeEntryIgnore (S : List String) (db : List TimeEntry)
    (i : String) (now : Int)
    (h : ∀ e ∈ db, e.id ∈ S → e.is_active = false) :
    ∀ e ∈ endTimeEntryIgnore db i now, e.id ∈ S → e.is_active = false := by
  unfold endTimeEntryIgnore endTimeEntry
  cases hh : (db.filter (fun x => x.id == i)).head? with
  | none => exact h
  | some e0 =>
      intro e' he' hid
      simp only [List.mem_map] at he'
      obtain ⟨x, hx, hfx⟩ := he'
      subst hfx
      by_cases hxi : (x.id == i) = true
      · rw [if_pos hxi]; rfl
      · rw [if_neg hxi] at hid ⊢
        exact h x hx hid

/-- Rows already inactive on a set of ids stay inactive through a batch. -/
theorem inactiveOn_closeAll (S ids : List String) (now : Int)
    (db : List TimeEntry)
    (h : ∀ e ∈ db, e.id ∈ S → e.is_active = false) :
    ∀ e ∈ closeAll ids now db, e.id ∈ S → e.is_active = false := by
  induction ids generalizing db with
  | nil => exact h
  | cons i t ih =>
      simp only [closeAll, List.foldl_cons]
      exact ih (endTimeEntryIgnore db i now) (inactiveOn_endTimeEntryIgnore S db i now h)

/-- After ending entry `i`, every row with id `i` is inactive. -/
theorem endTimeEntryIgnore_closes_id (db : List TimeEntry) (i : String) (now : Int) :
    ∀ e ∈ endTimeEntryIgnore db i now, e.id = i → e.is_active = false := by
  unfold endTimeEntryIgnore endTimeEntry
  cases hh : (db.filter (fun x => x.id == i)).head? with
  | none =>
      intro e he hid
      have hnil : db.filter (fun x => x.id == i) = [] := by
        cases hf : db.filter (fun x => x.id == i) with
        | nil => rfl
        | cons x t => rw [hf] at hh; simp at hh
      exfalso
      have hmem : e ∈ db.filter (fun x => x.id == i) :=
        List.mem_filter.mpr ⟨he, by simp [hid]⟩
      rw [hnil] at hmem
      simp at hmem
  | some e0 =>
      intro e' he' hid
      simp only [List.mem_map] at he'
      obtain ⟨x, hx, hfx⟩ := he'
      subst hfx
      by_cases hxi : (x.id == i) = true
      · rw [if_pos hxi]; rfl
      · rw [if_neg hxi] at hid
        exact absurd (by simp [hid]) hxi

/-- After a batch close over `ids`, every row whose id is in `ids` is
inactive. -/
theorem closeAll_closes (ids : List String) (now : Int) (db : List TimeEntry) :
    ∀ e ∈ closeAll ids now db, e.id ∈ ids → e.is_active = false := by
  induction ids generalizing db with
  | nil => intro e _ hid; simp at hid
  | cons i t ih =>
      intro e he hid
      simp only [closeAll, List.foldl_cons] at he
      rcases List.mem_cons.mp hid with hidi | hidt
      · exact inactiveOn_closeAll [i] t now (endTimeEntryIgnore db i now)
          (fun x hx hxS =>
            endTimeEntryIgnore_closes_id db i now x hx (by simpa using hxS))
          e he (by simp [hidi])
      · exact ih (endTimeEntryIgnore db i now) e he hidt

/-- The untracked start branch is a no-op. -/
theorem winStartBranch_untracked (fg : Option String) (apps : List Application)
    (user : String) (now : Int) (freshId : String) (st : TrackingState)
    (db : List TimeEntry) :
    winStartBranch false fg apps user now freshId st db = (st, db, false) := rfl

/-- The cache update never touches `active_apps`. -/
theorem winCacheUpdate_active_apps (fg : Option String) (now : Int) (b : Bool)
    (st : TrackingState) :
    (winCacheUpdate fg now b st).active_apps = st.active_apps := by
  cases fg <;> cases b <;> rfl

/-- With a foreground process present, the tick always leaves the cache
holding the freshly built snapshot of that process. -/
theorem winCacheUpdate_cached_some (f : String) (now : Int) (b : Bool)
    (st : TrackingState) :
    (winCacheUpdate (some f) now b st).cached_current_activity
      = some (winSnapshot f now st) := by
  cases b <;> rfl

/-- When the foreground app is untracked, the close branch always ends with
an empty `active_apps` map. -/
theorem winCloseBranch_false_active_apps (now : Int) (st : TrackingState)
    (db : List TimeEntry) :
    (winCloseBranch false now st db).1.active_apps = [] := by
  unfold winCloseBranch
  by_cases h : st.active_apps.isEmpty = true
  · have hnil : st.active_apps = [] := List.isEmpty_iff.mp h
    rw [h]
    simpa using hnil
  · have h' : st.active_apps.isEmpty = false := by
      cases hb : st.active_apps.isEmpty
      · rfl
      · exact absurd hb h
    rw [h']
    simp

/-- The close branch never creates or deletes rows. -/
theorem winCloseBranch_false_map_id (now : Int) (st : TrackingState)
    (db : List TimeEntry) :
    (winCloseBranch false now st db).2.map (·.id) = db.map (·.id) := by
  unfold winCloseBranch
  by_cases h : st.active_apps.isEmpty = true
  · rw [h]
    simp
  · have h' : st.active_apps.isEmpty = false := by
      cases hb : st.active_apps.isEmpty
      · rfl
      · exact absurd hb h
    rw [h']
    simpa using closeAll_map_id (st.active_apps.map Prod.snd) now db

/-- The close branch ends every session recorded in `active_apps`. -/
theorem winCloseBranch_false_closes (now : Int) (st : TrackingState)
    (db : List TimeEntry) :
    ∀ e ∈ (winCloseBranch false now st db).2,
      e.id ∈ st.active_apps.map Prod.snd → e.is_active = false := by
  unfold winCloseBranch
  by_cases h : st.active_apps.isEmpty = true
  · have hnil : st.active_apps = [] := List.isEmpty_iff.mp h
    rw [h]
    intro e _ hid
    rw [hnil] at hid
    simp at hid
  · have h' : st.active_apps.isEmpty = false := by
      cases hb : st.active_apps.isEmpty
      · rfl
      · exact absurd hb h
    rw [h']
    simpa using closeAll_closes (st.active_apps.map Prod.snd) now db

/-- C5: Untracked-app reconciliation — on a tick whose focused process
matches no tracked application (Windows matching is exact equality on
`process_name`), no session is created (the id column of the collaborator is
unchanged), the `active_apps` map ends empty, every session that was open in
state has been ended in the collaborator, and the cache is replaced by the
fresh snapshot of the untracked foreground app (`is_active = false`,
count 0) — the pre-tick cached value is discarded. -/
theorem c5_untracked_closes_all_and_creates_none (f user freshId : String)
    (now : Int) (apps : List Application) (w : WinWorld)
    (hnm : apps.any (fun a => a.process_name == f) = false) :
    ((winUpdateActivity (some f) apps user now freshId w).state.active_apps = []) ∧
    ((winUpdateActivity (some f) apps user now freshId w).db.map (·.id)
        = w.db.map (·.id)) ∧
    (∀ e ∈ (winUpdateActivity (some f) apps user now freshId w).db,
        e.id ∈ w.state.active_apps.map Prod.snd → e.is_active = false) ∧
    ((winUpdateActivity (some f) apps user now freshId w).state.cached_current_activity
        = some { app_name := f, app_category := categorizeAppWindows f
                 start_time := now, duration_minutes := 0, duration_hours := 0
                 is_active := false, active_apps_count := 0 }) := by
  have htracked : winForegroundIsTracked (some f) apps = false := hnm
  refine ⟨?_, ?_, ?_, ?_⟩
  · simp only [winUpdateActivity, htracked, winStartBranch_untracked]
    simp [winCacheUpdate_active_apps, winCloseBranch_false_active_apps]
  · simp only [winUpdateActivity, htracked, winStartBranch_untracked]
    simp [winCloseBranch_false_map_id]
  · simp only [winUpdateActivity, htracked, winStartBranch_untracked]
    intro e he hid
    exact winCloseBranch_false_closes now _ w.db e he hid
  · simp only [winUpdateActivity, htracked, winStartBranch_untracked]
    simp [winCacheUpdate_cached_some, winSnapshot, winCloseBranch_false_active_apps,
          lookupA]

/-- Witness for C5: one open `code.exe` session in state, focus moves to the
untracked `chrome.exe`. -/
theorem c5_witness :
    ([sampleApp].any (fun a => a.process_name == "chrome.exe") = false) ∧
    ((winUpdateActivity (some "chrome.exe") [sampleApp] "u1" 9 "entry-9"
        { state := { active_apps := [("code.exe", "e1")], last_activity_time := 5
                     is_tracking := true, app_last_seen := [("code.exe", 5)]
                     cached_current_activity := none, cache_last_updated := 5 }
          db := [c3Entry] }).state.active_apps = []) := by
  refine ⟨by decide, ?_⟩
  exact (c5_untracked_closes_all_and_creates_none "chrome.exe" "u1" "entry-9" 9
    [sampleApp] _ (by decide)).1

/-- The tracked application of the spec's concrete scenario: match key
`"code"`, display name `"Editor"`. -/
def specApp : Application :=
  { id := "app-2", name := "Editor", process_name := "code"
    category := none, is_tracked := true, user_id := some "u1" }

/-- C6 counterexample: `names_match "code" "Code.exe"` is true, yet the
Windows tick compares `process_name` by exact equality, so the focused
process `"Code.exe"` is not recognised as tracked and no session opens
(the collaborator stays empty and `active_apps` stays empty). -/
theorem c6_counterexample_windows_does_not_fuzzy_match :
    namesMatch "code" "Code.exe" = true ∧
    winForegroundIsTracked (some "Code.exe") [specApp] = false ∧
    ((winUpdateActivity (some "Code.exe") [specApp] "u1" 3 "entry-3"
        initialWorld).db = []) ∧
    ((winUpdateActivity (some "Code.exe") [specApp] "u1" 3 "entry-3"
        initialWorld).state.active_apps = []) := by
  refine ⟨by decide, by decide, by decide, by decide⟩

/-- C6 (amended): `names_match` implements exactly the described
normalization (two names match iff the normalized character sequences are
equal or one contains the other) and is symmetric; the macOS matcher
recognises focused `"Code.exe"` for match key `"code"`, but the Windows
tracker compares process names by exact equality and rejects the same
pair — the fuzzy matching is not used throughout. -/
theorem c6_fuzzy_matching_macos_only (a b : String) :
    (namesMatch a b = true ↔
      ((normalizeName a).toList = (normalizeName b).toList ∨
       containsSub (normalizeName a).toList (normalizeName b).toList = true ∨
       containsSub (normalizeName b).toList (normalizeName a).toList = true)) ∧
    namesMatch a b = namesMatch b a ∧
    namesMatch "code" "Code.exe" = true ∧
    macosAppIsTracked [specApp] "Code.exe" "com.microsoft.vscode" = true ∧
    winForegroundIsTracked (some "Code.exe") [specApp] = false := by
  refine ⟨?_, ?_, by decide, by decide, by decide⟩
  · simp only [namesMatch, Bool.or_eq_true, beq_iff_eq]
    tauto
  · simp only [namesMatch]
    by_cases h : (normalizeName a).toList = (normalizeName b).toList
    · rw [h]
    · have h1 : ((normalizeName a).toList == (normalizeName b).toList) = false := by
        simpa using h
      have h2 : ((normalizeName b).toList == (normalizeName a).toList) = false := by
        simpa using Ne.symm h
      rw [h1, h2]
      simp only [Bool.false_or]
      exact Bool.or_comm _ _

/-- Truncating division by 60 is monotone on nonnegative durations. -/
theorem minutesOf_mono {x y : Int} (hx : 0 ≤ x) (hxy : x ≤ y) :
    minutesOf x ≤ minutesOf y := by
  unfold minutesOf
  rw [Int.tdiv_eq_ediv hx (by decide), Int.tdiv_eq_ediv (le_trans hx hxy) (by decide)]
  exact Int.ediv_le_ediv (by decide) hxy

/-- Tracker state with a session open since instant 0, used against the
Windows `get_current_activity` getter. -/
def c7State : TrackingState :=
  { active_apps := [("code.exe", "e1")], last_activity_time := 0
    is_tracking := true, app_last_seen := [("code.exe", 0)]
    cached_current_activity := some
      { app_name := "code.exe", app_category := "Development", start_time := 0
        duration_minutes := 0, duration_hours := 0, is_active := true
        active_apps_count := 1 }
    cache_last_updated := 600 }

/-- C7 counterexample: the Windows `get_current_activity` (one of the two
implementations the claim covers) reports `duration_minutes = 0` at both
calls even though 10 (resp. 11) minutes have elapsed since the session's
start at instant 0, and its `start_time` is the call instant, not the
session start — the duration is fixed at zero, not recomputed. -/
theorem c7_counterexample_windows_duration_always_zero :
    ((winGetCurrentActivity (some "code.exe") 600 c7State).map
        (fun a => a.duration_minutes) = some 0) ∧
    ((winGetCurrentActivity (some "code.exe") 660 c7State).map
        (fun a => a.duration_minutes) = some 0) ∧
    ((winGetCurrentActivity (some "code.exe") 660 c7State).map
        (fun a => a.start_time) = some 660) ∧
    minutesOf (660 - 0) = 11 := by
  refine ⟨by decide, by decide, by decide, by decide⟩

/-- C7 (amended): in `ActivityTracker::get_current_activity`, two calls
inside the 2-second TTL while a session is open return the cached
`app_name`/`app_category` unchanged with `duration_minutes` recomputed from
the cached `start_time`, hence monotonically non-decreasing (and the first
call leaves the state untouched); the Windows platform getter, by contrast,
always reports `duration_minutes = 0`. -/
theorem c7_ttl_cached_identity_and_monotone_duration (st : ATState)
    (db : List TimeEntry) (apps : List Application) (now1 now2 : Int)
    (eid : String) (c : CurrentActivity)
    (hid : st.current_entry_id = some eid)
    (hc : st.cached_current_activity = some c)
    (h12 : now1 ≤ now2)
    (hf : now2 - st.cache_last_updated < 2)
    (hs : c.start_time ≤ now1) :
    (∀ (g : String) (n : Int) (stw : TrackingState),
        (winGetCurrentActivity (some g) n stw).map
          (fun a => a.duration_minutes) = some 0) ∧
    ((atGetCurrentActivity st db apps now1).2 = st) ∧
    (∃ a1 a2,
      (atGetCurrentActivity st db apps now1).1 = some a1 ∧
      (atGetCurrentActivity st db apps now2).1 = some a2 ∧
      a1.app_name = c.app_name ∧ a2.app_name = c.app_name ∧
      a1.app_category = c.app_category ∧ a2.app_category = c.app_category ∧
      a1.duration_minutes = minutesOf (now1 - c.start_time) ∧
      a2.duration_minutes = minutesOf (now2 - c.start_time) ∧
      a1.duration_minutes ≤ a2.duration_minutes) := by
  have hcond1 : now1 - st.cache_last_updated < 2 := by omega
  have h1 : atGetCurrentActivity st db apps now1 =
      (some { app_name := c.app_name, app_category := c.app_category
              start_time := c.start_time
              duration_minutes := minutesOf (now1 - c.start_time)
              duration_hours := hoursOf (now1 - c.start_time)
              is_active := c.is_active, active_apps_count := 1 }, st) := by
    unfold atGetCurrentActivity
    rw [hid, hc]
    simp only [Option.isNone_some, Bool.false_eq_true, if_false]
    rw [if_pos hcond1]
  have h2 : atGetCurrentActivity st db apps now2 =
      (some { app_name := c.app_name, app_category := c.app_category
              start_time := c.start_time
              duration_minutes := minutesOf (now2 - c.start_time)
              duration_hours := hoursOf (now2 - c.start_time)
              is_active := c.is_active, active_apps_count := 1 }, st) := by
    unfold atGetCurrentActivity
    rw [hid, hc]
    simp only [Option.isNone_some, Bool.false_eq_true, if_false]
    rw [if_pos hf]
  refine ⟨fun g n stw => rfl, by rw [h1], ?_⟩
  refine ⟨{ app_name := c.app_name, app_category := c.app_category
            start_time := c.start_time
            duration_minutes := minutesOf (now1 - c.start_time)
            duration_hours := hoursOf (now1 - c.start_time)
            is_active := c.is_active, active_apps_count := 1 },
          { app_name := c.app_name, app_category := c.app_category
            start_time := c.start_time
            duration_minutes := minutesOf (now2 - c.start_time)
            duration_hours := hoursOf (now2 - c.start_time)
            is_active := c.is_active, active_apps_count := 1 },
          by rw [h1], by rw [h2], rfl, rfl, rfl, rfl, rfl, rfl,
          minutesOf_mono (by omega) (by omega)⟩

/-- The snapshot cached in the C7 witness state. -/
def c7Snapshot : CurrentActivity :=
  { app_name := "Editor", app_category := "Development", start_time := 40
    duration_minutes := 1, duration_hours := 0, is_active := true
    active_apps_count := 1 }

/-- The ActivityTracker state of the C7 witness: session `e1` open, cache
refreshed at instant 100. -/
def c7ATState : ATState :=
  { current_focused_app := some "code.exe", current_entry_id := some "e1"
    last_activity_time := 100, is_tracking := true, last_focused_change := 50
    cached_current_activity := some c7Snapshot, cache_last_updated := 100 }

/-- Witness for C7: two calls at instants 100 and 101 inside the TTL. -/
theorem c7_witness :
    (∀ (g : String) (n : Int) (stw : TrackingState),
        (winGetCurrentActivity (some g) n stw).map
          (fun a => a.duration_minutes) = some 0) ∧
    ((atGetCurrentActivity c7ATState [] [] 100).2 = c7ATState) ∧
    (∃ a1 a2,
      (atGetCurrentActivity c7ATState [] [] 100).1 = some a1 ∧
      (atGetCurrentActivity c7ATState [] [] 101).1 = some a2 ∧
      a1.app_name = c7Snapshot.app_name ∧ a2.app_name = c7Snapshot.app_name ∧
      a1.app_category = c7Snapshot.app_category ∧
      a2.app_category = c7Snapshot.app_category ∧
      a1.duration_minutes = minutesOf (100 - c7Snapshot.start_time) ∧
      a2.duration_minutes = minutesOf (101 - c7Snapshot.start_time) ∧
      a1.duration_minutes ≤ a2.duration_minutes) :=
  c7_ttl_cached_identity_and_monotone_duration c7ATState [] [] 100 101 "e1"
    c7Snapshot rfl rfl (by decide) (by decide) (by decide)

/-- Tracker world with one open session and a warm cache, used by C8. -/
def c8World : WinWorld :=
  { state := { active_apps := [("code.exe", "e1")], last_activity_time := 5
               is_tracking := true, app_last_seen := [("code.exe", 5)]
               cached_current_activity := some
                 { app_name := "code.exe", app_category := "Development"
                   start_time := 0, duration_minutes := 0, duration_hours := 0
                   is_active := true, active_apps_count := 1 }
               cache_last_updated := 5 }
    db := [c3Entry] }

/-- C8 counterexample: after `stop_tracking` the `active_apps` map, the
`app_last_seen` map and the cached activity are all left exactly as they
were — none of the state fields is reset to empty/None as the claim
states. -/
theorem c8_counterexample_state_not_reset :
    ((winStopTracking 9 c8World).2.state.active_apps = [("code.exe", "e1")]) ∧
    ((winStopTracking 9 c8World).2.state.app_last_seen = [("code.exe", 5)]) ∧
    ((winStopTracking 9 c8World).2.state.cached_current_activity ≠ none) := by
  refine ⟨by decide, by decide, by decide⟩

/-- C8 (amended): `stop_tracking` returns `Ok`, sets `is_tracking` to false
and synchronously ends every session recorded in `active_apps` before
returning, but it resets no other state: `active_apps`, `app_last_seen` and
the cached activity keep their previous values. -/
theorem c8_stop_tracking_closes_but_does_not_reset (now : Int) (w : WinWorld) :
    ((winStopTracking now w).1 = .ok ()) ∧
    ((winStopTracking now w).2.state.is_tracking = false) ∧
    ((winStopTracking now w).2.state.active_apps = w.state.active_apps) ∧
    ((winStopTracking now w).2.state.app_last_seen = w.state.app_last_seen) ∧
    ((winStopTracking now w).2.state.cached_current_activity
        = w.state.cached_current_activity) ∧
    (∀ e ∈ (winStopTracking now w).2.db,
        e.id ∈ w.state.active_apps.map Prod.snd → e.is_active = false) := by
  refine ⟨rfl, rfl, rfl, rfl, rfl, ?_⟩
  intro e he hid
  exact closeAll_closes _ now w.db e he hid

/-- Witness for C8 at the concrete world with one open session. -/
theorem c8_witness :
    ((winStopTracking 9 c8World).1 = .ok ()) ∧
    ((winStopTracking 9 c8World).2.state.is_tracking = false) ∧
    ((winStopTracking 9 c8World).2.state.active_apps = c8World.state.active_apps) ∧
    ((winStopTracking 9 c8World).2.state.app_last_seen
        = c8World.state.app_last_seen) ∧
    ((winStopTracking 9 c8World).2.state.cached_current_activity
        = c8World.state.cached_current_activity) ∧
    (∀ e ∈ (winStopTracking 9 c8World).2.db,
        e.id ∈ c8World.state.active_apps.map Prod.snd → e.is_active = false) :=
  c8_stop_tracking_closes_but_does_not_reset 9 c8World

/-- With unique ids, filtering the table on a member's id yields exactly
that row. -/
theorem filter_id_nodup (db : List TimeEntry) (e : TimeEntry)
    (hnd : (db.map (·.id)).Nodup) (he : e ∈ db) :
    db.filter (fun x => x.id == e.id) = [e] := by
  induction db with
  | nil => simp at he
  | cons a t ih =>
      simp only [List.map_cons, List.nodup_cons] at hnd
      obtain ⟨hna, hnt⟩ := hnd
      rcases List.mem_cons.mp he with rfl | het
      · simp only [List.filter_cons]
        rw [if_pos (by simp)]
        have hfe : t.filter (fun x => x.id == e.id) = [] := by
          rw [List.filter_eq_nil_iff]
          intro x hx hbeq
          have hxe : x.id = e.id := by simpa using hbeq
          exact hna (hxe ▸ List.mem_map_of_mem (fun y => y.id) hx)
        rw [hfe]
      · simp only [List.filter_cons]
        have hne : (a.id == e.id) = false := by
          have hmem : e.id ∈ t.map (·.id) := List.mem_map_of_mem _ het
          have : a.id ≠ e.id := fun h => hna (h ▸ hmem)
          simpa using this
        rw [if_neg (by simp [hne])]
        exact ih hnt het

/-- With unique ids, ending a member's id puts exactly its closed form
(duration from its own original `start_time`) into the table. -/
theorem endTimeEntryIgnore_mem_close (db : List TimeEntry) (e : TimeEntry)
    (now : Int) (hnd : (db.map (·.id)).Nodup) (he : e ∈ db) :
    closeEntryAt now (now - e.start_time) e ∈ endTimeEntryIgnore db e.id now := by
  unfold endTimeEntryIgnore endTimeEntry
  rw [show (db.filter (fun x => x.id == e.id)).head? = some e by
    rw [filter_id_nodup db e hnd he]; rfl]
  refine List.mem_map.mpr ⟨e, he, ?_⟩
  rw [if_pos (by simp)]

/-- A row whose id differs from the ended one passes through unchanged. -/
theorem mem_endTimeEntryIgnore_of_ne (db : List TimeEntry) (e : TimeEntry)
    (j : String) (now : Int) (he : e ∈ db) (hne : e.id ≠ j) :
    e ∈ endTimeEntryIgnore db j now := by
  unfold endTimeEntryIgnore endTimeEntry
  cases hh : (db.filter (fun z => z.id == j)).head? with
  | none => exact he
  | some e0 =>
      refine List.mem_map.mpr ⟨e, he, ?_⟩
      rw [if_neg (by simpa using hne)]

/-- A row already in fully-closed form at `now` is a fixpoint of any later
close at `now` (unique ids). -/
theorem closeEntryAt_fixpoint (db : List TimeEntry) (x : TimeEntry) (j : String)
    (now : Int) (hnd : (db.map (·.id)).Nodup) (hx : x ∈ db)
    (hact : x.is_active = false) (hend : x.end_time = some now)
    (hdur : x.duration_seconds = some (now - x.start_time))
    (hupd : x.updated_at = now) :
    x ∈ endTimeEntryIgnore db j now := by
  unfold endTimeEntryIgnore endTimeEntry
  cases hh : (db.filter (fun z => z.id == j)).head? with
  | none => exact hx
  | some e0 =>
      refine List.mem_map.mpr ⟨x, hx, ?_⟩
      by_cases hxj : (x.id == j) = true
      · rw [if_pos hxj]
        have hxid : x.id = j := by simpa using hxj
        have hsome : (db.filter (fun z => z.id == j)).head? = some x := by
          rw [← hxid, filter_id_nodup db x hnd hx]; rfl
        rw [hh] at hsome
        have he0 : e0 = x := Option.some_inj.mp hsome
        rw [he0]
        unfold closeEntryAt
        cases x
        simp_all
      · rw [if_neg hxj]

/-- A fully closed row stays untouched through a whole batch close
(unique ids). -/
theorem closeAll_fixpoint (ids : List String) (db : List TimeEntry)
    (x : TimeEntry) (now : Int) (hnd : (db.map (·.id)).Nodup) (hx : x ∈ db)
    (hact : x.is_active = false) (hend : x.end_time = some now)
    (hdur : x.duration_seconds = some (now - x.start_time))
    (hupd : x.updated_at = now) :
    x ∈ closeAll ids now db := by
  induction ids generalizing db with
  | nil => exact hx
  | cons j t ih =>
      simp only [closeAll, List.foldl_cons]
      exact ih (endTimeEntryIgnore db j now)
        (by rw [endTimeEntryIgnore_map_id]; exact hnd)
        (closeEntryAt_fixpoint db x j now hnd hx hact hend hdur hupd)

/-- Batch close, membership form: every member whose id is in the batch
appears afterwards in closed form, its duration computed from its own
original `start_time` (unique ids). -/
theorem closeAll_mem_close (ids : List String) (db : List TimeEntry)
    (e : TimeEntry) (now : Int) (hnd : (db.map (·.id)).Nodup) (he : e ∈ db)
    (hid : e.id ∈ ids) :
    closeEntryAt now (now - e.start_time) e ∈ closeAll ids now db := by
  induction ids generalizing db with
  | nil => simp at hid
  | cons j t ih =>
      simp only [closeAll, List.foldl_cons]
      by_cases hj : e.id = j
      · subst hj
        exact closeAll_fixpoint t (endTimeEntryIgnore db e.id now) _ now
          (by rw [endTimeEntryIgnore_map_id]; exact hnd)
          (endTimeEntryIgnore_mem_close db e now hnd he) rfl rfl rfl rfl
      · rcases List.mem_cons.mp hid with h | h
        · exact absurd h hj
        · exact ih (endTimeEntryIgnore db j now)
            (by rw [endTimeEntryIgnore_map_id]; exact hnd)
            (mem_endTimeEntryIgnore_of_ne db e j now he hj) h

/-- C9: Orphan cleanup at startup — when not already tracking,
`start_tracking` runs `cleanup_existing_active_entries` before anything
else: every persisted entry of the user left `is_active = true` (from a
prior run) is closed with `end_time = now` and a duration computed from
that entry's own original `start_time`, and only then is `is_tracking`
set (ids assumed unique, as uuids are). -/
theorem c9_startup_orphan_cleanup (user : String) (now : Int) (w : WinWorld)
    (e : TimeEntry) (htr : w.state.is_tracking = false)
    (hnd : (w.db.map (·.id)).Nodup) (he : e ∈ w.db)
    (hu : e.user_id = user) (ha : e.is_active = true) :
    ((winStartTracking user now w).state.is_tracking = true) ∧
    (closeEntryAt now (now - e.start_time) e ∈ (winStartTracking user now w).db) := by
  unfold winStartTracking
  rw [if_neg (by simp [htr])]
  refine ⟨rfl, ?_⟩
  apply closeAll_mem_close _ w.db e now hnd he
  refine List.mem_map.mpr ⟨e, ?_, rfl⟩
  exact List.mem_filter.mpr ⟨he, by simp [hu, ha]⟩

/-- The orphaned active entry of the C9 witness. -/
def c9Orphan : TimeEntry :=
  { id := "orphan-1", user_id := "u1", app_id := some "app-1", task_id := none
    start_time := 100, end_time := none, duration_seconds := none
    is_active := true, created_at := 100, updated_at := 100 }

/-- The not-yet-tracking world of the C9 witness. -/
def c9World : WinWorld :=
  { state := { active_apps := [], last_activity_time := 0, is_tracking := false
               app_last_seen := [], cached_current_activity := none
               cache_last_updated := 0 }
    db := [c9Orphan] }

/-- Witness for C9: starting at instant 150 closes the orphan started at
instant 100 with duration 50. -/
theorem c9_witness :
    ((winStartTracking "u1" 150 c9World).state.is_tracking = true) ∧
    (closeEntryAt 150 (150 - c9Orphan.start_time) c9Orphan
        ∈ (winStartTracking "u1" 150 c9World).db) :=
  c9_startup_orphan_cleanup "u1" 150 c9World c9Orphan rfl (by decide)
    (by decide) rfl rfl

/-- C10: `stop_tracking_for_app` always returns `Ok` and only removes the
key from the in-memory `active_apps` map — the collaborator table is
untouched, so a persisted active session stays `is_active = true`; every
other state field keeps its value; `stop_tracking_for_app_by_id` changes
nothing at all. -/
theorem c10_stop_for_app_is_memory_only (pname appId : String) (w : WinWorld) :
    ((winStopTrackingForApp pname w).1 = .ok ()) ∧
    ((winStopTrackingForApp pname w).2.db = w.db) ∧
    ((winStopTrackingForApp pname w).2.state.active_apps
        = eraseA w.state.active_apps pname) ∧
    ((winStopTrackingForApp pname w).2.state.is_tracking = w.state.is_tracking) ∧
    ((winStopTrackingForApp pname w).2.state.app_last_seen
        = w.state.app_last_seen) ∧
    ((winStopTrackingForApp pname w).2.state.cached_current_activity
        = w.state.cached_current_activity) ∧
    (∀ e ∈ w.db, e.is_active = true →
        e ∈ (winStopTrackingForApp pname w).2.db ∧ e.is_active = true) ∧
    (winStopTrackingForAppById appId w = (.ok (), w)) := by
  refine ⟨rfl, rfl, rfl, rfl, rfl, rfl, ?_, rfl⟩
  intro e he ha
  exact ⟨he, ha⟩

/-- Witness for C10 at the concrete world with one open session. -/
theorem c10_witness :
    ((winStopTrackingForApp "code.exe" c8World).1 = .ok ()) ∧
    ((winStopTrackingForApp "code.exe" c8World).2.db = c8World.db) ∧
    ((winStopTrackingForApp "code.exe" c8World).2.state.active_apps
        = eraseA c8World.state.active_apps "code.exe") ∧
    ((winStopTrackingForApp "code.exe" c8World).2.state.is_tracking
        = c8World.state.is_tracking) ∧
    ((winStopTrackingForApp "code.exe" c8World).2.state.app_last_seen
        = c8World.state.app_last_seen) ∧
    ((winStopTrackingForApp "code.exe" c8World).2.state.cached_current_activity
        = c8World.state.cached_current_activity) ∧
    (∀ e ∈ c8World.db, e.is_active = true →
        e ∈ (winStopTrackingForApp "code.exe" c8World).2.db ∧
        e.is_active = true) ∧
    (winStopTrackingForAppById "app-1" c8World = (.ok (), c8World)) :=
  c10_stop_for_app_is_memory_only "code.exe" "app-1" c8World
